import Mathlib

set_option maxRecDepth 4000

/-!
Verification development for the YOLO video timestamp-extraction repository.

The aggregation/analysis core lives in `extract_timestamps.py`
(`format_timestamp`, `detect_objects_in_video`, `save_results`) and the
interval merger in `example_usage.py` (`example_detection_intervals`).
Numbers are embedded as rationals; Python's `round` (half-to-even decimal
rounding) and `int` (truncation toward zero) are modelled explicitly.
-/

/-- Round a rational to the nearest integer, ties to even: the rounding mode of
Python's built-in `round` and of `datetime.timedelta`'s microsecond
quantization. -/
def rhe (q : ℚ) : ℤ :=
  let f := Int.floor q
  let r := q - f
  if r < 1/2 then f
  else if 1/2 < r then f + 1
  else if Even f then f else f + 1

/-- Python `round(q, n)`: round to `n` decimal places, ties to even. -/
def roundTo (n : ℕ) (q : ℚ) : ℚ :=
  (rhe (q * (10 : ℚ) ^ n) : ℚ) / (10 : ℚ) ^ n

/-- Python `int(q)`: truncation toward zero. -/
def qtrunc (q : ℚ) : ℤ :=
  if q < 0 then Int.ceil q else Int.floor q

/-- Python `f"{n:0{width}d}"`: decimal rendering zero-padded to `width`,
with the padding inserted after the sign. -/
def zfill (width : ℕ) (n : ℤ) : String :=
  if n < 0 then
    let s := toString (-n)
    "-" ++ (if s.length + 1 < width then
      String.mk (List.replicate (width - 1 - s.length) '0') ++ s else s)
  else
    let s := toString n
    if s.length < width then
      String.mk (List.replicate (width - s.length) '0') ++ s else s

/-- `format_timestamp` from `extract_timestamps.py` lines 10-17: convert
seconds to `HH:MM:SS.mmm`.  `timedelta(seconds=...)` quantizes its argument to
whole microseconds (ties to even); `int(...)` truncates toward zero; Python's
`divmod` is floor division. -/
def format_timestamp (seconds : ℚ) : String :=
  let td_total : ℚ := (rhe (seconds * 1000000) : ℚ) / 1000000
  let total_seconds : ℤ := qtrunc td_total
  let hours : ℤ := Int.fdiv total_seconds 3600
  let remainder : ℤ := Int.fmod total_seconds 3600
  let minutes : ℤ := Int.fdiv remainder 60
  let secs : ℤ := Int.fmod remainder 60
  let milliseconds : ℤ := qtrunc ((td_total - (total_seconds : ℚ)) * 1000)
  zfill 2 hours ++ ":" ++ zfill 2 minutes ++ ":" ++ zfill 2 secs ++ "." ++
    zfill 3 milliseconds

/-- One raw detection as handed over by the detector for one frame
(`extract_timestamps.py` lines 73-86: class id, class name, confidence and the
four bounding-box coordinates read off one YOLO `box`). -/
structure RawDet where
  class_name : String
  class_id : ℤ
  confidence : ℚ
  x1 : ℚ
  y1 : ℚ
  x2 : ℚ
  y2 : ℚ
deriving DecidableEq

/-- `bbox` sub-dictionary of a stored detection
(`extract_timestamps.py` lines 96-101). -/
structure BBox where
  x1 : ℚ
  y1 : ℚ
  x2 : ℚ
  y2 : ℚ
deriving DecidableEq

/-- One stored detection record (`extract_timestamps.py` lines 89-102). -/
structure DetectionRecord where
  timestamp_seconds : ℚ
  timestamp_formatted : String
  frame_number : ℕ
  class_name : String
  class_id : ℤ
  confidence : ℚ
  bbox : BBox
deriving DecidableEq

/-- The per-frame timestamp (`extract_timestamps.py` line 66:
`timestamp_seconds = frame_number / fps if fps > 0 else 0`). -/
def timestampOf (frame_number : ℕ) (fps : ℚ) : ℚ :=
  if 0 < fps then (frame_number : ℚ) / fps else 0

/-- The detection dictionary built at `extract_timestamps.py` lines 89-102:
the timestamp is rounded to 3 decimals for storage, while
`timestamp_formatted` was already computed (line 67) from the unrounded
per-frame timestamp; confidence is rounded to 3 decimals and the bounding box
to 2. -/
def mkDetection (fps : ℚ) (frame_number : ℕ) (r : RawDet) : DetectionRecord :=
  let timestamp_seconds := timestampOf frame_number fps
  { timestamp_seconds := roundTo 3 timestamp_seconds
    timestamp_formatted := format_timestamp timestamp_seconds
    frame_number := frame_number
    class_name := r.class_name
    class_id := r.class_id
    confidence := roundTo 3 r.confidence
    bbox := { x1 := roundTo 2 r.x1, y1 := roundTo 2 r.y1
              x2 := roundTo 2 r.x2, y2 := roundTo 2 r.y2 } }

/-- Append `d` under key `c` in an insertion-ordered association map,
creating the entry at the end on first sighting: the behaviour of
`defaultdict(list)` plus `append` at `extract_timestamps.py` lines 56 and 104
(Python dictionaries preserve insertion order). -/
def appendDet (m : List (String × List DetectionRecord)) (c : String)
    (d : DetectionRecord) : List (String × List DetectionRecord) :=
  match m with
  | [] => [(c, [d])]
  | (c', l) :: rest =>
    if c' = c then (c', l ++ [d]) :: rest else (c', l) :: appendDet rest c d

/-- The class filter test at `extract_timestamps.py` lines 82-83:
`if target_classes is not None and class_name not in target_classes: continue`.
Returns `true` when the detection is skipped. -/
def excludedByFilter (target_classes : Option (List String)) (c : String) :
    Bool :=
  match target_classes with
  | none => false
  | some l => ! l.contains c

/-- Processing of one frame's raw detections
(`extract_timestamps.py` lines 73-104): each raw detection that survives the
class filter is stored under its class name. -/
def processFrame (fps : ℚ) (target_classes : Option (List String))
    (frame_number : ℕ) (raws : List RawDet)
    (dets : List (String × List DetectionRecord)) :
    List (String × List DetectionRecord) :=
  raws.foldl
    (fun m r =>
      if excludedByFilter target_classes r.class_name then m
      else appendDet m r.class_name (mkDetection fps frame_number r)) dets

/-- The frame loop of `extract_timestamps.py` lines 57-111: `frame_number`
starts at 0 and increments once per frame; each frame's detector output is
processed in order. -/
def runFrames (fps : ℚ) (target_classes : Option (List String)) :
    ℕ → List (List RawDet) → List (String × List DetectionRecord) →
    List (String × List DetectionRecord)
  | _, [], m => m
  | n, f :: fs, m =>
    runFrames fps target_classes (n + 1) fs
      (processFrame fps target_classes n f m)

/-- One `summary` entry (`extract_timestamps.py` lines 132-136). -/
structure SummaryEntry where
  count : ℕ
  first_appearance : Option String
  last_appearance : Option String
deriving DecidableEq

/-- The summary entry computed for one class's detection list
(`extract_timestamps.py` lines 132-136): the count is the list length and the
first/last appearance are the `timestamp_formatted` field of the first/last
stored detection (`None` on an empty list). -/
def summaryOf (l : List DetectionRecord) : SummaryEntry :=
  { count := l.length
    first_appearance := l.head?.map (fun d => d.timestamp_formatted)
    last_appearance := l.getLast?.map (fun d => d.timestamp_formatted) }

/-- The `summary` block (`extract_timestamps.py` lines 131-138): one entry per
class of the detection map, in the same order. -/
def summaryMap (m : List (String × List DetectionRecord)) :
    List (String × SummaryEntry) :=
  m.map (fun p => (p.1, summaryOf p.2))

/-- `video_properties` block (`extract_timestamps.py` lines 119-124). -/
structure VideoProperties where
  fps : ℚ
  total_frames : ℤ
  duration_seconds : ℚ
  duration_formatted : String
deriving DecidableEq

/-- The `target_classes` field of the `detection_settings` block:
`target_classes if target_classes else 'all classes'`
(`extract_timestamps.py` line 128) collapses both `None` and the empty list
to the string `'all classes'`. -/
inductive TargetClassesField where
  | allClasses : TargetClassesField
  | listed : List String → TargetClassesField
deriving DecidableEq

/-- Rendering of the run's class filter into the settings block
(`extract_timestamps.py` line 128). -/
def mkTargetClassesField (target_classes : Option (List String)) :
    TargetClassesField :=
  match target_classes with
  | none => .allClasses
  | some [] => .allClasses
  | some l => .listed l

/-- `detection_settings` block (`extract_timestamps.py` lines 125-129). -/
structure DetectionSettings where
  model : String
  confidence_threshold : ℚ
  target_classes : TargetClassesField
deriving DecidableEq

/-- The dictionary returned by `detect_objects_in_video`
(`extract_timestamps.py` lines 117-139). -/
structure OutputData where
  video_path : String
  video_properties : VideoProperties
  detection_settings : DetectionSettings
  detections_by_class : List (String × List DetectionRecord)
  summary : List (String × SummaryEntry)
deriving DecidableEq

/-- `detect_objects_in_video` (`extract_timestamps.py` lines 20-141), taken at
its boundary with the external collaborators: the video properties `fps` and
`total_frames` come from OpenCV and `frames` is the per-frame list of raw
detections returned by the YOLO model after its own confidence thresholding.
The core computes the duration (line 48), folds the frame loop and assembles
the output dictionary. -/
def detect_objects_in_video (video_path model_path : String)
    (conf_threshold : ℚ) (target_classes : Option (List String)) (fps : ℚ)
    (total_frames : ℤ) (frames : List (List RawDet)) : OutputData :=
  let video_duration := if 0 < fps then (total_frames : ℚ) / fps else 0
  let detections := runFrames fps target_classes 0 frames []
  { video_path := video_path
    video_properties :=
      { fps := roundTo 2 fps
        total_frames := total_frames
        duration_seconds := roundTo 3 video_duration
        duration_formatted := format_timestamp video_duration }
    detection_settings :=
      { model := model_path
        confidence_threshold := conf_threshold
        target_classes := mkTargetClassesField target_classes }
    detections_by_class := detections
    summary := summaryMap detections }

/-- A sample raw detection used for concrete evaluations. -/
def rawCar : RawDet :=
  { class_name := "car", class_id := 2, confidence := 9/10
    x1 := 0, y1 := 0, x2 := 10, y2 := 10 }

/-- A sample raw detection used for concrete evaluations. -/
def rawPerson : RawDet :=
  { class_name := "person", class_id := 0, confidence := 4/5
    x1 := 1, y1 := 1, x2 := 5, y2 := 5 }

/-- One step of the interval-merge loop of
`example_usage.py` lines 99-112, on the state
(intervals so far, current_start, current_end): if the next timestamp is
within the gap tolerance of the current interval's end, the end is extended
to it; otherwise the current interval is appended to the output and a new
interval is started at the timestamp.  The source fixes the tolerance to the
literal `1.0`; the spec names that constant `gapToleranceSeconds`, the only
free constant of the loop, so it is a parameter here. -/
def mergeStep (gapToleranceSeconds : ℚ)
    (st : List (ℚ × ℚ) × ℚ × ℚ) (ts : ℚ) : List (ℚ × ℚ) × ℚ × ℚ :=
  if ts - st.2.2 ≤ gapToleranceSeconds then (st.1, st.2.1, ts)
  else (st.1 ++ [(st.2.1, st.2.2)], ts, ts)

/-- The interval merger of `example_usage.py` lines 94-119
(`example_detection_intervals`): the timeline is the list of
`timestamp_seconds` values of one class's detections.  An empty timeline
produces no intervals (the loop body is guarded by `if car_detections:`);
otherwise the state is seeded with the first timestamp as both start and end,
the loop runs over the remaining timestamps, and the last open interval is
always appended after the loop.  Each output pair is the numeric
(current_start, current_end) state at the moment the interval is closed (the
source additionally renders the two numbers through `format_timestamp` for
display). -/
def mergeIntervals (timeline : List ℚ) (gapToleranceSeconds : ℚ) :
    List (ℚ × ℚ) :=
  match timeline with
  | [] => []
  | t0 :: rest =>
    let r := rest.foldl (mergeStep gapToleranceSeconds) ([], t0, t0)
    r.1 ++ [(r.2.1, r.2.2)]

/-- Recursive rendering of the merge algorithm exactly as the spec words it
(spec §4.3): with the current interval `[s, e]` open, a next timestamp within
the gap tolerance of `e` extends the end, otherwise `(s, e)` is closed
(appended to the output) and a new interval starts; when the input is
exhausted the open interval is always closed. -/
def mergeSpecGo (gapToleranceSeconds : ℚ) :
    ℚ → ℚ → List ℚ → List (ℚ × ℚ)
  | s, e, [] => [(s, e)]
  | s, e, t :: ts =>
    if t - e ≤ gapToleranceSeconds then mergeSpecGo gapToleranceSeconds s t ts
    else (s, e) :: mergeSpecGo gapToleranceSeconds t t ts

/-- The spec's merge algorithm (spec §4.3), written from its words: empty
timeline gives empty output, otherwise the first timestamp seeds the current
interval as both start and end. -/
def mergeIntervalsSpec (timeline : List ℚ) (gapToleranceSeconds : ℚ) :
    List (ℚ × ℚ) :=
  match timeline with
  | [] => []
  | t0 :: rest => mergeSpecGo gapToleranceSeconds t0 t0 rest

/-- The CSV header row written at `extract_timestamps.py` lines 156-157. -/
def csvHeader : List String :=
  ["Timestamp (seconds)", "Timestamp (formatted)", "Frame", "Class",
   "Confidence", "X1", "Y1", "X2", "Y2"]

/-- One CSV data row (`extract_timestamps.py` lines 162-172).  `csv.writer`
stringifies every cell; `toString` stands in for Python's `str` on the
numeric cells, which the claims do not inspect. -/
def csvDataRow (d : DetectionRecord) : List String :=
  [toString d.timestamp_seconds, d.timestamp_formatted,
   toString d.frame_number, d.class_name, toString d.confidence,
   toString d.bbox.x1, toString d.bbox.y1, toString d.bbox.x2,
   toString d.bbox.y2]

/-- The CSV branch of `save_results` (`extract_timestamps.py` lines 151-172):
the header row is written first, then one row per detection, iterating the
classes of `detections_by_class` in dictionary order and each class's
detections in list order. -/
def writeCsv (data : OutputData) : List (List String) :=
  data.detections_by_class.foldl
    (fun rows p => p.2.foldl (fun rows d => rows ++ [csvDataRow d]) rows)
    [csvHeader]

/-- What `save_results` writes: the JSON branch serializes the whole data
dictionary, the CSV branch the row list. -/
inductive SaveOutput where
  | json : OutputData → SaveOutput
  | csv : List (List String) → SaveOutput
deriving DecidableEq

/-- Python's `str.lower()` on the format names used here (ASCII): lower-case
every character. -/
def str_lower (s : String) : String :=
  String.mk (s.data.map Char.toLower)

/-- `save_results` (`extract_timestamps.py` lines 144-176): `format.lower()`
selects the JSON or CSV branch; any other format raises
`ValueError(f"Unsupported output format: {format}")`.  The data dictionary is
only read, never modified. -/
def save_results (data : OutputData) (format : String) :
    Except String SaveOutput :=
  if str_lower format = "json" then .ok (.json data)
  else if str_lower format = "csv" then .ok (.csv (writeCsv data))
  else .error ("Unsupported output format: " ++ format)

/-- Errors of the spec's Aggregator (spec §7).  Only `OutOfOrderFrame` is
exercised by the claims. -/
inductive AggError where
  | OutOfOrderFrame : AggError
  | AggregatorClosed : AggError
deriving DecidableEq

/-- Aggregator run state: the last frame index seen and the per-class
timelines recorded so far. -/
structure AggState where
  last_seen : Option ℕ
  dets : List (String × List DetectionRecord)
deriving DecidableEq

/-- Modelled from the spec: the repository has no `ingest(frameIndex, ...)`
entry point — `extract_timestamps.py` drives its loop with an internal
counter that only ever increments (lines 57 and 106), so the
`OutOfOrderFrame` guard of spec §4.1/§7 exists only in the specification.
`ingest` checks that the frame index strictly exceeds the last index seen
(rejecting any index "not greater than the last seen", §7) and otherwise
records the frame's detections with the same per-frame processing the source
performs (`processFrame`). -/
def ingest (fps : ℚ) (target_classes : Option (List String)) (st : AggState)
    (frameIndex : ℕ) (raws : List RawDet) : Except AggError AggState :=
  match st.last_seen with
  | some last =>
    if frameIndex ≤ last then .error .OutOfOrderFrame
    else .ok { last_seen := some frameIndex
               dets := processFrame fps target_classes frameIndex raws st.dets }
  | none =>
    .ok { last_seen := some frameIndex
          dets := processFrame fps target_classes frameIndex raws st.dets }

/-- Modelled from the spec: feeding a sequence of frames to `ingest`,
stopping at the first error; the error leaves the state as it was before the
offending call (spec §7: no partial corruption). -/
def runIngest (fps : ℚ) (target_classes : Option (List String)) :
    AggState → List (ℕ × List RawDet) → AggState × Option AggError
  | st, [] => (st, none)
  | st, (fi, raws) :: rest =>
    match ingest fps target_classes st fi raws with
    | .error e => (st, some e)
    | .ok st' => runIngest fps target_classes st' rest

/-- Key lookup in the insertion-ordered class map (`detections[class_name]`
presence test). -/
def lookupClass {α : Type} (c : String) : List (String × α) → Option α
  | [] => none
  | (k, v) :: rest => if k = c then some v else lookupClass c rest

example : format_timestamp (2/3) = "00:00:00.666" := by with_unfolding_all decide
example : format_timestamp (667/1000) = "00:00:00.667" := by with_unfolding_all decide
example : format_timestamp 3725 = "01:02:05.000" := by with_unfolding_all decide

example :
    (mkDetection 3000 2000 rawCar).timestamp_seconds = 667/1000 := by
  with_unfolding_all decide

example :
    (mkDetection 3000 2000 rawCar).timestamp_formatted = "00:00:00.666" := by
  with_unfolding_all decide

example : mergeIntervals [0, 1/10, 2/10] 1 = [(0, 2/10)] := by
  with_unfolding_all decide

example : mergeIntervals [0, 5] 1 = [(0, 0), (5, 5)] := by
  with_unfolding_all decide

/-- The imperative loop of `mergeIntervals`, expressed as a fold, agrees with
the recursive rendering `mergeSpecGo`, for any already-accumulated output. -/
lemma mergeFold_eq (gap : ℚ) :
    ∀ (rest : List ℚ) (acc : List (ℚ × ℚ)) (s e : ℚ),
      (rest.foldl (mergeStep gap) (acc, s, e)).1 ++
          [((rest.foldl (mergeStep gap) (acc, s, e)).2.1,
            (rest.foldl (mergeStep gap) (acc, s, e)).2.2)] =
        acc ++ mergeSpecGo gap s e rest
  | [], acc, s, e => by simp [mergeSpecGo]
  | t :: ts, acc, s, e => by
    by_cases h : t - e ≤ gap
    · simp only [List.foldl_cons, mergeStep, if_pos h, mergeSpecGo]
      exact mergeFold_eq gap ts acc s t
    · simp only [List.foldl_cons, mergeStep, if_neg h, mergeSpecGo]
      rw [mergeFold_eq gap ts (acc ++ [(s, e)]) t t]
      simp

/-- The source's interval merger computes the spec's algorithm. -/
lemma mergeIntervals_eq_spec (tl : List ℚ) (gap : ℚ) :
    mergeIntervals tl gap = mergeIntervalsSpec tl gap := by
  cases tl with
  | nil => rfl
  | cons t0 rest =>
    show (rest.foldl (mergeStep gap) ([], t0, t0)).1 ++ _ = _
    rw [mergeFold_eq gap rest [] t0 t0]
    simp [mergeIntervalsSpec]

/-- In a `(· ≤ ·)`-chain the head is below every later element. -/
lemma chain_le_head (t : ℚ) (ts : List ℚ)
    (h : List.Chain' (· ≤ ·) (t :: ts)) : ∀ x ∈ ts, t ≤ x := by
  have hp := List.chain'_iff_pairwise.mp h
  exact fun x hx => List.rel_of_pairwise_cons hp hx

/-- Soundness of the recursive merge loop: starting from an open interval
`[s, e]` with `s ≤ e` and a sorted remainder bounded below by `e`, the loop
produces a nonempty output of at most `rest.length + 1` intervals whose head
starts at `s`, whose boundaries are drawn from the inputs, whose members are
well-formed and strictly separated, and which covers every remaining
timestamp. -/
lemma mergeSpecGo_sound (gap : ℚ) (hgap : 0 ≤ gap) (rest : List ℚ) :
    ∀ s e : ℚ, s ≤ e → List.Chain' (· ≤ ·) (e :: rest) →
      mergeSpecGo gap s e rest ≠ [] ∧
      (mergeSpecGo gap s e rest).length ≤ rest.length + 1 ∧
      (∃ e₂, (mergeSpecGo gap s e rest).head? = some (s, e₂) ∧ e ≤ e₂) ∧
      (∀ p ∈ mergeSpecGo gap s e rest,
        p.1 ≤ p.2 ∧ p.1 ∈ s :: rest ∧ p.2 ∈ e :: rest) ∧
      List.Pairwise (fun a b : ℚ × ℚ => a.2 < b.1) (mergeSpecGo gap s e rest) ∧
      (∀ t ∈ rest, ∃ p ∈ mergeSpecGo gap s e rest, p.1 ≤ t ∧ t ≤ p.2) := by
  induction rest with
  | nil =>
    intro s e hse _
    refine ⟨by simp [mergeSpecGo], by simp [mergeSpecGo],
      ⟨e, by simp [mergeSpecGo], le_refl e⟩, ?_, by simp [mergeSpecGo],
      by simp⟩
    intro p hp
    simp only [mergeSpecGo, List.mem_singleton] at hp
    subst hp
    exact ⟨hse, by simp, by simp⟩
  | cons t ts ih =>
    intro s e hse hch
    obtain ⟨het, hch'⟩ := List.chain'_cons.mp hch
    by_cases hgt : t - e ≤ gap
    · have hst : s ≤ t := le_trans hse het
      obtain ⟨hne, hlen, ⟨e₂, hhead, he₂⟩, hmem, hpw, hcov⟩ := ih s t hst hch'
      rw [show mergeSpecGo gap s e (t :: ts) = mergeSpecGo gap s t ts from by
        simp [mergeSpecGo, hgt]]
      refine ⟨hne, le_trans hlen (by simp),
        ⟨e₂, hhead, le_trans het he₂⟩, ?_, hpw, ?_⟩
      · intro p hp
        obtain ⟨h1, h2, h3⟩ := hmem p hp
        refine ⟨h1, ?_, ?_⟩
        · rcases List.mem_cons.mp h2 with h | h
          · exact List.mem_cons.mpr (Or.inl h)
          · exact List.mem_cons.mpr (Or.inr (List.mem_cons.mpr (Or.inr h)))
        · exact List.mem_cons.mpr (Or.inr h3)
      · intro x hx
        rcases List.mem_cons.mp hx with hx | hx
        · subst hx
          exact ⟨(s, e₂), List.mem_of_mem_head? hhead,
            le_trans hse het, he₂⟩
        · exact hcov x hx
    · have hlt : e < t := by
        have := not_le.mp hgt
        linarith
      obtain ⟨hne, hlen, ⟨e₂, hhead, he₂⟩, hmem, hpw, hcov⟩ :=
        ih t t (le_refl t) hch'
      rw [show mergeSpecGo gap s e (t :: ts) = (s, e) :: mergeSpecGo gap t t ts
        from by simp [mergeSpecGo, hgt]]
      have hts_ge : ∀ x ∈ ts, t ≤ x := chain_le_head t ts hch'
      refine ⟨by simp, by simpa using Nat.succ_le_succ hlen,
        ⟨e, rfl, le_refl e⟩, ?_, ?_, ?_⟩
      · intro p hp
        rcases List.mem_cons.mp hp with hp | hp
        · subst hp
          exact ⟨hse, by simp, by simp⟩
        · obtain ⟨h1, h2, h3⟩ := hmem p hp
          refine ⟨h1, ?_, ?_⟩
          · exact List.mem_cons.mpr (Or.inr h2)
          · rcases List.mem_cons.mp h3 with h | h
            · exact List.mem_cons.mpr
                (Or.inr (List.mem_cons.mpr (Or.inl h)))
            · exact List.mem_cons.mpr
                (Or.inr (List.mem_cons.mpr (Or.inr h)))
      · refine List.pairwise_cons.mpr ⟨?_, hpw⟩
        intro b hb
        have hb1 := (hmem b hb).2.1
        have htb : t ≤ b.1 := by
          rcases List.mem_cons.mp hb1 with h | h
          · exact le_of_eq h.symm
          · exact hts_ge _ h
        exact lt_of_lt_of_le hlt htb
      · intro x hx
        rcases List.mem_cons.mp hx with hx | hx
        · refine ⟨(t, e₂),
            List.mem_cons.mpr (Or.inr (List.mem_of_mem_head? hhead)),
            le_of_eq hx.symm, ?_⟩
          rw [hx]
          exact he₂
        · obtain ⟨p, hp, hps⟩ := hcov x hx
          exact ⟨p, List.mem_cons.mpr (Or.inr hp), hps⟩

/-- Claim C1: for every timeline and every gap tolerance, the interval merger
of `example_usage.py` follows exactly the spec's steps: an empty timeline
gives an empty output; otherwise the current interval is seeded with the
first timestamp as both start and end, each subsequent timestamp within the
gap tolerance of the current interval's (possibly extended) end extends the
end, any other timestamp closes the current interval and starts a new one,
and the last open interval is always appended after the loop.  Stated as:
the source's fold-based merger coincides with `mergeIntervalsSpec`, the
recursive function written from the spec's wording (the gap comparison is
against the extended end `e`, not the previous single timestamp). -/
theorem C1_merge_follows_spec_algorithm :
    ∀ (timeline : List ℚ) (gapToleranceSeconds : ℚ),
      mergeIntervals timeline gapToleranceSeconds =
        mergeIntervalsSpec timeline gapToleranceSeconds :=
  mergeIntervals_eq_spec

/-- Claim C2: on a non-empty, non-decreasing timeline of `n` timestamps with
a non-negative gap tolerance, the merger yields between 1 and `n` intervals;
each interval has `start ≤ end` with both endpoints drawn from the input
timestamps; the intervals are strictly ordered by start and pairwise
disjoint (each ends before the next begins); and every input timestamp lies
in some produced interval. -/
theorem C2_merge_invariants (timeline : List ℚ) (gapToleranceSeconds : ℚ)
    (hne : timeline ≠ []) (hsort : List.Chain' (· ≤ ·) timeline)
    (hgap : 0 ≤ gapToleranceSeconds) :
    1 ≤ (mergeIntervals timeline gapToleranceSeconds).length ∧
    (mergeIntervals timeline gapToleranceSeconds).length ≤ timeline.length ∧
    (∀ p ∈ mergeIntervals timeline gapToleranceSeconds,
      p.1 ≤ p.2 ∧ p.1 ∈ timeline ∧ p.2 ∈ timeline) ∧
    List.Pairwise (fun a b : ℚ × ℚ => a.1 < b.1 ∧ a.2 < b.1)
      (mergeIntervals timeline gapToleranceSeconds) ∧
    (∀ t ∈ timeline, ∃ p ∈ mergeIntervals timeline gapToleranceSeconds,
      p.1 ≤ t ∧ t ≤ p.2) := by
  obtain ⟨t0, rest, rfl⟩ := List.exists_cons_of_ne_nil hne
  rw [mergeIntervals_eq_spec]
  have h := mergeSpecGo_sound gapToleranceSeconds hgap rest t0 t0
    (le_refl t0) hsort
  obtain ⟨hne', hlen, ⟨e₂, hhead, he₂⟩, hmem, hpw, hcov⟩ := h
  have hout : mergeIntervalsSpec (t0 :: rest) gapToleranceSeconds =
      mergeSpecGo gapToleranceSeconds t0 t0 rest := rfl
  rw [hout]
  refine ⟨?_, by simpa using hlen, hmem, ?_, ?_⟩
  · exact Nat.one_le_iff_ne_zero.mpr
      (fun h0 => hne' (List.length_eq_zero.mp h0))
  · refine hpw.imp_of_mem ?_
    intro a b ha _ hab
    exact ⟨lt_of_le_of_lt (hmem a ha).1 hab, hab⟩
  · intro t ht
    rcases List.mem_cons.mp ht with ht | ht
    · subst ht
      exact ⟨(t, e₂), List.mem_of_mem_head? hhead, le_refl t, he₂⟩
    · exact hcov t ht

/-- Witness for claim C2 at the spec's Scenario B: timestamps 0.0 and 5.0
with gap tolerance 1.0 give the two point intervals [0,0] and [5,5]. -/
theorem C2_merge_invariants_witness :
    mergeIntervals [0, 5] 1 = [(0, 0), (5, 5)] ∧
    (1 ≤ (mergeIntervals [0, 5] 1).length ∧
     (mergeIntervals [0, 5] 1).length ≤ ([(0 : ℚ), 5]).length ∧
     (∀ p ∈ mergeIntervals [0, 5] 1,
       p.1 ≤ p.2 ∧ p.1 ∈ [(0 : ℚ), 5] ∧ p.2 ∈ [(0 : ℚ), 5]) ∧
     List.Pairwise (fun a b : ℚ × ℚ => a.1 < b.1 ∧ a.2 < b.1)
       (mergeIntervals [0, 5] 1) ∧
     (∀ t ∈ [(0 : ℚ), 5], ∃ p ∈ mergeIntervals [0, 5] 1,
       p.1 ≤ t ∧ t ≤ p.2)) :=
  ⟨by with_unfolding_all decide,
   C2_merge_invariants [0, 5] 1 (by simp)
     (by norm_num [List.chain'_cons]) (by norm_num)⟩

/-- Claim C3 as stated is false on the code: the summary's first (and last)
appearance is copied from the detections' `timestamp_formatted` field, which
is not determined by the stored `timestampSeconds` value.  Concretely, at
fps 3000 the detection of frame 2000 stores `timestamp_seconds = 0.667`
(2/3 rounded to 3 decimals) but `first_appearance = "00:00:00.666"`
(formatted from the unrounded 2/3), while the rendering of the stored
`timestamp_seconds` is "00:00:00.667". -/
theorem C3_counterexample_first_appearance :
    (summaryOf [mkDetection 3000 2000 rawCar]).first_appearance ≠
      some (format_timestamp
        (mkDetection 3000 2000 rawCar).timestamp_seconds) := by
  with_unfolding_all decide

/-- Claim C3 amended: for every class with a non-empty timeline, the summary
entry has `count` equal to the timeline's length, and `first_appearance` /
`last_appearance` taken from the first / last element's `timestamp_formatted`
field (the pre-rounding formatted rendering), not from its
`timestamp_seconds` field. -/
theorem C3_summary_from_formatted (tl : List DetectionRecord)
    (h : tl ≠ []) :
    (summaryOf tl).count = tl.length ∧
    (summaryOf tl).first_appearance =
      some (tl.head h).timestamp_formatted ∧
    (summaryOf tl).last_appearance =
      some (tl.getLast h).timestamp_formatted := by
  refine ⟨rfl, ?_, ?_⟩
  · simp [summaryOf, List.head?_eq_head h]
  · simp [summaryOf, List.getLast?_eq_getLast tl h]

/-- Witness for the amended claim C3 on a concrete one-element timeline. -/
theorem C3_summary_from_formatted_witness :
    (summaryOf [mkDetection 3000 2000 rawCar]).count =
      [mkDetection 3000 2000 rawCar].length ∧
    (summaryOf [mkDetection 3000 2000 rawCar]).first_appearance =
      some (([mkDetection 3000 2000 rawCar].head (by simp)).timestamp_formatted) ∧
    (summaryOf [mkDetection 3000 2000 rawCar]).last_appearance =
      some (([mkDetection 3000 2000 rawCar].getLast (by simp)).timestamp_formatted) :=
  C3_summary_from_formatted [mkDetection 3000 2000 rawCar] (by simp)

/-- Claim C5: the timestamp assigned to a frame's detections is
`frame_number / fps` when `fps > 0` and `0` when `fps ≤ 0` (a non-positive
frame rate degrades to zero timestamps instead of failing), and the stored
detection's `timestamp_seconds` is exactly that value rounded to 3 decimal
places. -/
theorem C5_timestamp_formula (frame_number : ℕ) (fps : ℚ) (r : RawDet) :
    (0 < fps → timestampOf frame_number fps = (frame_number : ℚ) / fps) ∧
    (fps ≤ 0 → timestampOf frame_number fps = 0) ∧
    (mkDetection fps frame_number r).timestamp_seconds =
      roundTo 3 (timestampOf frame_number fps) :=
  ⟨fun h => if_pos h, fun h => if_neg (not_lt.mpr h), rfl⟩

/-- Witness for claim C5 at frame 2 with fps 3 (positive branch) and fps 0
(degenerate branch). -/
theorem C5_timestamp_formula_witness :
    timestampOf 2 3 = ((2 : ℕ) : ℚ) / 3 ∧ timestampOf 2 0 = 0 ∧
    (mkDetection 3 2 rawCar).timestamp_seconds =
      roundTo 3 (timestampOf 2 3) :=
  ⟨(C5_timestamp_formula 2 3 rawCar).1 (by norm_num),
   (C5_timestamp_formula 2 0 rawCar).2.1 (by norm_num),
   (C5_timestamp_formula 2 3 rawCar).2.2⟩

/-- Claim C8: if a frame index not greater than the last seen one arrives
during a run, ingestion fails with `OutOfOrderFrame`, and the run's state —
in particular every detection already recorded for earlier frames — is
retained unchanged (the failing run returns the pre-error state). -/
theorem C8_out_of_order_frame (fps : ℚ)
    (target_classes : Option (List String)) (st : AggState)
    (frameIndex last : ℕ) (raws : List RawDet)
    (rest : List (ℕ × List RawDet)) (hlast : st.last_seen = some last)
    (hle : frameIndex ≤ last) :
    ingest fps target_classes st frameIndex raws =
      .error .OutOfOrderFrame ∧
    runIngest fps target_classes st ((frameIndex, raws) :: rest) =
      (st, some .OutOfOrderFrame) := by
  have h1 : ingest fps target_classes st frameIndex raws =
      .error .OutOfOrderFrame := by
    simp [ingest, hlast, hle]
  exact ⟨h1, by simp [runIngest, h1]⟩

/-- Witness for claim C8 at the spec's Scenario D: after ingesting frame 5,
ingesting frame 3 raises `OutOfOrderFrame` and the frame-5 detections are
retained. -/
theorem C8_out_of_order_frame_witness :
    ((runIngest 10 none ⟨none, []⟩ [(5, [rawCar])]).1.last_seen = some 5 ∧
     3 ≤ 5) ∧
    (ingest 10 none (runIngest 10 none ⟨none, []⟩ [(5, [rawCar])]).1 3 [] =
       .error .OutOfOrderFrame ∧
     runIngest 10 none (runIngest 10 none ⟨none, []⟩ [(5, [rawCar])]).1
         [(3, [])] =
       ((runIngest 10 none ⟨none, []⟩ [(5, [rawCar])]).1,
        some .OutOfOrderFrame)) ∧
    (runIngest 10 none ⟨none, []⟩ [(5, [rawCar])]).1.dets =
      [("car", [mkDetection 10 5 rawCar])] :=
  ⟨⟨rfl, by norm_num⟩,
   C8_out_of_order_frame 10 none
     (runIngest 10 none ⟨none, []⟩ [(5, [rawCar])]).1 3 5 [] [] rfl
     (by norm_num),
   by with_unfolding_all decide⟩

/-- Claim C9: requesting an export in any format whose lower-cased name is
neither "json" nor "csv" produces the `Unsupported output format` error,
and this is fatal to that export call only: the result set is untouched (the
function only reads it) and both supported exports still succeed on the very
same data afterwards. -/
theorem C9_unsupported_export_format (data : OutputData) (format : String)
    (h1 : str_lower format ≠ "json") (h2 : str_lower format ≠ "csv") :
    save_results data format =
      .error ("Unsupported output format: " ++ format) ∧
    save_results data "json" = .ok (.json data) ∧
    save_results data "csv" = .ok (.csv (writeCsv data)) := by
  refine ⟨?_, rfl, rfl⟩
  simp [save_results, h1, h2]

/-- Witness for claim C9 with the unsupported format "xml" on a concrete
(empty-video) result set. -/
theorem C9_unsupported_export_format_witness :
    (str_lower "xml" ≠ "json" ∧ str_lower "xml" ≠ "csv") ∧
    (save_results (detect_objects_in_video "v.mp4" "yolov8n.pt" (1/4) none
        30 0 []) "xml" =
      .error ("Unsupported output format: " ++ "xml") ∧
     save_results (detect_objects_in_video "v.mp4" "yolov8n.pt" (1/4) none
        30 0 []) "json" =
      .ok (.json (detect_objects_in_video "v.mp4" "yolov8n.pt" (1/4) none
        30 0 [])) ∧
     save_results (detect_objects_in_video "v.mp4" "yolov8n.pt" (1/4) none
        30 0 []) "csv" =
      .ok (.csv (writeCsv (detect_objects_in_video "v.mp4" "yolov8n.pt"
        (1/4) none 30 0 [])))) :=
  ⟨⟨by decide, by decide⟩,
   C9_unsupported_export_format _ "xml" (by decide) (by decide)⟩

lemma processFrame_nil (fps : ℚ) (tc : Option (List String)) (n : ℕ)
    (m : List (String × List DetectionRecord)) :
    processFrame fps tc n [] m = m := rfl

lemma processFrame_cons (fps : ℚ) (tc : Option (List String)) (n : ℕ)
    (r : RawDet) (rs : List RawDet)
    (m : List (String × List DetectionRecord)) :
    processFrame fps tc n (r :: rs) m =
      processFrame fps tc n rs
        (if excludedByFilter tc r.class_name then m
         else appendDet m r.class_name (mkDetection fps n r)) := rfl

/-- Filtering during ingestion is the same as pre-filtering the raw
detections of each frame to the allowed classes. -/
lemma processFrame_some_eq_filter (fps : ℚ) (l : List String) (n : ℕ) :
    ∀ (raws : List RawDet) (m : List (String × List DetectionRecord)),
      processFrame fps (some l) n raws m =
        processFrame fps none n
          (raws.filter (fun r => l.contains r.class_name)) m
  | [], _ => rfl
  | r :: rs, m => by
    by_cases h : l.contains r.class_name
    · rw [processFrame_cons, List.filter_cons_of_pos (by simpa using h),
        processFrame_cons]
      simp only [excludedByFilter, h, Bool.not_true, Bool.false_eq_true,
        if_false]
      exact processFrame_some_eq_filter fps l n rs _
    · rw [processFrame_cons,
        List.filter_cons_of_neg (by simpa using h)]
      simp only [excludedByFilter, Bool.not_eq_true', Bool.not_true]
      rw [if_pos (by simp [Bool.eq_false_iff.mpr, h]; simp at h; exact h)]
      exact processFrame_some_eq_filter fps l n rs m

lemma runFrames_some_eq_filter (fps : ℚ) (l : List String) :
    ∀ (frames : List (List RawDet)) (n : ℕ)
      (m : List (String × List DetectionRecord)),
      runFrames fps (some l) n frames m =
        runFrames fps none n
          (frames.map (fun raws =>
            raws.filter (fun r => l.contains r.class_name))) m
  | [], _, _ => rfl
  | f :: fs, n, m => by
    show runFrames fps (some l) (n + 1) fs (processFrame fps (some l) n f m) =
      _
    rw [processFrame_some_eq_filter,
      runFrames_some_eq_filter fps l fs (n + 1) _]
    rfl

/-- Under an empty allow-list every raw detection is skipped. -/
lemma processFrame_empty_allowlist (fps : ℚ) (n : ℕ) :
    ∀ (raws : List RawDet) (m : List (String × List DetectionRecord)),
      processFrame fps (some []) n raws m = m
  | [], _ => rfl
  | r :: rs, m => by
    rw [processFrame_cons]
    simp only [excludedByFilter, List.contains_nil, Bool.not_false, if_true]
    exact processFrame_empty_allowlist fps n rs m

lemma runFrames_empty_allowlist (fps : ℚ) :
    ∀ (frames : List (List RawDet)) (n : ℕ)
      (m : List (String × List DetectionRecord)),
      runFrames fps (some []) n frames m = m
  | [], _, _ => rfl
  | f :: fs, n, m => by
    show runFrames fps (some []) (n + 1) fs
      (processFrame fps (some []) n f m) = m
    rw [processFrame_empty_allowlist]
    exact runFrames_empty_allowlist fps fs (n + 1) m

lemma lookupClass_appendDet (c c' : String)
    (d : DetectionRecord) (h : c' ≠ c) :
    ∀ m, lookupClass c (appendDet m c' d) = lookupClass c m
  | [] => by simp [appendDet, lookupClass, h]
  | (k, v) :: rest => by
    by_cases hk : k = c'
    · subst hk
      simp only [appendDet, if_pos rfl, lookupClass]
      rw [if_neg h, if_neg h]
    · simp only [appendDet, if_neg hk, lookupClass]
      rw [lookupClass_appendDet c c' d h rest]

lemma lookupClass_processFrame (fps : ℚ) (n : ℕ) (l : List String)
    (c : String) (hc : l.contains c = false) :
    ∀ (raws : List RawDet) (m : List (String × List DetectionRecord)),
      lookupClass c (processFrame fps (some l) n raws m) = lookupClass c m
  | [], _ => rfl
  | r :: rs, m => by
    rw [processFrame_cons]
    by_cases h : l.contains r.class_name
    · have hne : r.class_name ≠ c := by
        intro he
        rw [he, hc] at h
        exact Bool.false_ne_true h
      simp only [excludedByFilter, h, Bool.not_true, Bool.false_eq_true,
        if_false]
      rw [lookupClass_processFrame fps n l c hc rs _,
        lookupClass_appendDet c r.class_name _ hne m]
    · have hfalse : l.contains r.class_name = false := by simpa using h
      rw [if_pos (show excludedByFilter (some l) r.class_name = true by
          show (! l.contains r.class_name) = true
          rw [hfalse]
          rfl),
        lookupClass_processFrame fps n l c hc rs m]

lemma lookupClass_runFrames (fps : ℚ) (l : List String) (c : String)
    (hc : l.contains c = false) :
    ∀ (frames : List (List RawDet)) (n : ℕ)
      (m : List (String × List DetectionRecord)),
      lookupClass c (runFrames fps (some l) n frames m) = lookupClass c m
  | [], _, _ => rfl
  | f :: fs, n, m => by
    show lookupClass c (runFrames fps (some l) (n + 1) fs
      (processFrame fps (some l) n f m)) = _
    rw [lookupClass_runFrames fps l c hc fs (n + 1) _,
      lookupClass_processFrame fps n l c hc f m]

lemma lookupClass_summaryMap (c : String) :
    ∀ m, lookupClass c (summaryMap m) =
      Option.map summaryOf (lookupClass c m)
  | [] => rfl
  | (k, v) :: rest => by
    by_cases hk : k = c
    · simp [summaryMap, lookupClass, hk]
    · simp only [summaryMap, List.map_cons, lookupClass, if_neg hk]
      exact lookupClass_summaryMap c rest

lemma detect_detections_by_class (video_path model_path : String)
    (conf_threshold : ℚ) (target_classes : Option (List String)) (fps : ℚ)
    (total_frames : ℤ) (frames : List (List RawDet)) :
    (detect_objects_in_video video_path model_path conf_threshold
      target_classes fps total_frames frames).detections_by_class =
      runFrames fps target_classes 0 frames [] := rfl

lemma detect_summary (video_path model_path : String)
    (conf_threshold : ℚ) (target_classes : Option (List String)) (fps : ℚ)
    (total_frames : ℤ) (frames : List (List RawDet)) :
    (detect_objects_in_video video_path model_path conf_threshold
      target_classes fps total_frames frames).summary =
      summaryMap (runFrames fps target_classes 0 frames []) := rfl

/-- Claim C4: a raw detection is recorded exactly when the class filter is
`None` (all classes) or its class name is in the allow-list: filtering during
ingestion equals pre-filtering each frame's raw detections to the allowed
classes (with `None` the identity case by definition); an empty allow-list
excludes every detection; and a class not in the allow-list appears neither
in the per-class detection map nor in the summary map. -/
theorem C4_class_filter (video_path model_path : String)
    (conf_threshold fps : ℚ) (total_frames : ℤ)
    (frames : List (List RawDet)) (l : List String) (c : String) :
    runFrames fps (some l) 0 frames [] =
      runFrames fps none 0
        (frames.map (fun raws =>
          raws.filter (fun r => l.contains r.class_name))) [] ∧
    runFrames fps (some []) 0 frames [] = [] ∧
    (l.contains c = false →
      lookupClass c (detect_objects_in_video video_path model_path
          conf_threshold (some l) fps total_frames frames).detections_by_class
        = none ∧
      lookupClass c (detect_objects_in_video video_path model_path
          conf_threshold (some l) fps total_frames frames).summary = none) := by
  refine ⟨runFrames_some_eq_filter fps l frames 0 [],
    runFrames_empty_allowlist fps frames 0 [], fun hc => ⟨?_, ?_⟩⟩
  · rw [detect_detections_by_class,
      lookupClass_runFrames fps l c hc frames 0 []]
    rfl
  · rw [detect_summary, lookupClass_summaryMap,
      lookupClass_runFrames fps l c hc frames 0 []]
    rfl

/-- Witness for claim C4 at the spec's Scenario C: allow-list {"person"},
one frame containing a "car" and a "person" raw detection; "car" is absent
from both the detection map and the summary map. -/
theorem C4_class_filter_witness :
    (["person"].contains "car" = false) ∧
    lookupClass "car" (detect_objects_in_video "v.mp4" "yolov8n.pt" (1/4)
      (some ["person"]) 30 1 [[rawCar, rawPerson]]).detections_by_class =
      none ∧
    lookupClass "car" (detect_objects_in_video "v.mp4" "yolov8n.pt" (1/4)
      (some ["person"]) 30 1 [[rawCar, rawPerson]]).summary = none :=
  ⟨by decide,
   ((C4_class_filter "v.mp4" "yolov8n.pt" (1/4) 30 1 [[rawCar, rawPerson]]
      ["person"] "car").2.2 (by decide)).1,
   ((C4_class_filter "v.mp4" "yolov8n.pt" (1/4) 30 1 [[rawCar, rawPerson]]
      ["person"] "car").2.2 (by decide)).2⟩

example :
    (detect_objects_in_video "v" "m" (1/4) (some ["person"]) 30 1
      [[rawCar, rawPerson]]).detections_by_class.map Prod.fst = ["person"] :=
  by with_unfolding_all decide

lemma appendDet_nonempty (c : String) (d : DetectionRecord) :
    ∀ m, (∀ p ∈ m, p.2 ≠ []) → ∀ p ∈ appendDet m c d, p.2 ≠ []
  | [], _ => by
    intro p hp
    simp only [appendDet, List.mem_singleton] at hp
    subst hp
    simp
  | (k, v) :: rest, hm => by
    intro p hp
    by_cases hk : k = c
    · simp only [appendDet, if_pos hk] at hp
      rcases List.mem_cons.mp hp with hp | hp
      · subst hp
        simp
      · exact hm p (List.mem_cons.mpr (Or.inr hp))
    · simp only [appendDet, if_neg hk] at hp
      rcases List.mem_cons.mp hp with hp | hp
      · subst hp
        exact hm (k, v) (List.mem_cons.mpr (Or.inl rfl))
      · exact appendDet_nonempty c d rest
          (fun p hp => hm p (List.mem_cons.mpr (Or.inr hp))) p hp

lemma processFrame_nonempty (fps : ℚ) (tc : Option (List String)) (n : ℕ) :
    ∀ (raws : List RawDet) (m : List (String × List DetectionRecord)),
      (∀ p ∈ m, p.2 ≠ []) →
      ∀ p ∈ processFrame fps tc n raws m, p.2 ≠ []
  | [], m, hm => hm
  | r :: rs, m, hm => by
    rw [processFrame_cons]
    by_cases h : excludedByFilter tc r.class_name
    · rw [if_pos h]
      exact processFrame_nonempty fps tc n rs m hm
    · rw [if_neg h]
      exact processFrame_nonempty fps tc n rs _
        (appendDet_nonempty r.class_name (mkDetection fps n r) m hm)

lemma runFrames_nonempty (fps : ℚ) (tc : Option (List String)) :
    ∀ (frames : List (List RawDet)) (n : ℕ)
      (m : List (String × List DetectionRecord)),
      (∀ p ∈ m, p.2 ≠ []) →
      ∀ p ∈ runFrames fps tc n frames m, p.2 ≠ []
  | [], _, _, hm => hm
  | f :: fs, n, m, hm =>
    runFrames_nonempty fps tc fs (n + 1) _
      (processFrame_nonempty fps tc n f m hm)

/-- Claim C10: in every completed run's result set, each class present in the
detection map has a non-empty timeline (entries are created only on the first
appended detection), the summary map has exactly the same keys in the same
order, and consequently no summary entry has a `None` first or last
appearance. -/
theorem C10_result_set_invariants (video_path model_path : String)
    (conf_threshold : ℚ) (target_classes : Option (List String)) (fps : ℚ)
    (total_frames : ℤ) (frames : List (List RawDet)) :
    (∀ p ∈ (detect_objects_in_video video_path model_path conf_threshold
      target_classes fps total_frames frames).detections_by_class,
      p.2 ≠ []) ∧
    (detect_objects_in_video video_path model_path conf_threshold
        target_classes fps total_frames frames).summary.map Prod.fst =
      (detect_objects_in_video video_path model_path conf_threshold
        target_classes fps total_frames frames).detections_by_class.map
        Prod.fst ∧
    (∀ q ∈ (detect_objects_in_video video_path model_path conf_threshold
      target_classes fps total_frames frames).summary,
      q.2.first_appearance ≠ none ∧ q.2.last_appearance ≠ none) := by
  have hne : ∀ p ∈ runFrames fps target_classes 0 frames [], p.2 ≠ [] :=
    runFrames_nonempty fps target_classes frames 0 [] (by simp)
  refine ⟨?_, ?_, ?_⟩
  · rw [detect_detections_by_class]
    exact hne
  · rw [detect_summary, detect_detections_by_class]
    simp [summaryMap, List.map_map, Function.comp]
  · rw [detect_summary]
    intro q hq
    simp only [summaryMap, List.mem_map] at hq
    obtain ⟨p, hp, rfl⟩ := hq
    have hpne := hne p hp
    constructor
    · simp [summaryOf, List.head?_eq_head hpne]
    · simp [summaryOf, List.getLast?_eq_getLast p.2 hpne]

lemma foldl_append_rows :
    ∀ (l : List DetectionRecord) (init : List (List String)),
      l.foldl (fun rows d => rows ++ [csvDataRow d]) init =
        init ++ l.map csvDataRow
  | [], init => by simp
  | d :: ds, init => by
    simp only [List.foldl_cons, List.map_cons]
    rw [foldl_append_rows ds (init ++ [csvDataRow d])]
    simp

lemma writeCsv_foldl_eq_flatMap :
    ∀ (m : List (String × List DetectionRecord))
      (init : List (List String)),
      m.foldl
        (fun rows p => p.2.foldl (fun rows d => rows ++ [csvDataRow d]) rows)
        init =
        init ++ m.flatMap (fun p => p.2.map csvDataRow)
  | [], init => by simp
  | p :: ps, init => by
    simp only [List.foldl_cons]
    rw [foldl_append_rows p.2 init,
      writeCsv_foldl_eq_flatMap ps (init ++ p.2.map csvDataRow)]
    simp [List.flatMap_cons]

lemma summary_counts_eq_lengths (m : List (String × List DetectionRecord)) :
    (summaryMap m).map (fun q => q.2.count) =
      m.map (fun p => p.2.length) := by
  simp [summaryMap, List.map_map, Function.comp, summaryOf]

/-- Claim C7: for every finished result set, the CSV export is the exact
header row `Timestamp (seconds), Timestamp (formatted), Frame, Class,
Confidence, X1, Y1, X2, Y2` followed by one data row per detection, with the
classes concatenated in the hierarchical document's class order and each
class's rows in ingestion order; hence the number of data rows equals the sum
of the per-class counts of the summary block. -/
theorem C7_csv_export (video_path model_path : String)
    (conf_threshold : ℚ) (target_classes : Option (List String)) (fps : ℚ)
    (total_frames : ℤ) (frames : List (List RawDet)) :
    writeCsv (detect_objects_in_video video_path model_path conf_threshold
        target_classes fps total_frames frames) =
      ["Timestamp (seconds)", "Timestamp (formatted)", "Frame", "Class",
        "Confidence", "X1", "Y1", "X2", "Y2"] ::
        (detect_objects_in_video video_path model_path conf_threshold
          target_classes fps total_frames
          frames).detections_by_class.flatMap
          (fun p => p.2.map csvDataRow) ∧
    (writeCsv (detect_objects_in_video video_path model_path conf_threshold
        target_classes fps total_frames frames)).length =
      1 + ((detect_objects_in_video video_path model_path conf_threshold
        target_classes fps total_frames frames).summary.map
        (fun q => q.2.count)).sum := by
  have h1 : writeCsv (detect_objects_in_video video_path model_path
      conf_threshold target_classes fps total_frames frames) =
      csvHeader ::
        (detect_objects_in_video video_path model_path conf_threshold
          target_classes fps total_frames
          frames).detections_by_class.flatMap
          (fun p => p.2.map csvDataRow) := by
    show (detect_objects_in_video video_path model_path conf_threshold
      target_classes fps total_frames frames).detections_by_class.foldl _
      [csvHeader] = _
    rw [writeCsv_foldl_eq_flatMap]
    simp
  refine ⟨h1, ?_⟩
  rw [h1, detect_summary, detect_detections_by_class,
    summary_counts_eq_lengths]
  simp only [List.length_cons, List.flatMap, List.length_flatten,
    List.map_map, Function.comp_def, List.length_map]
  omega

lemma rhe_nonneg (q : ℚ) (h : 0 ≤ q) : 0 ≤ rhe q := by
  have hf : 0 ≤ Int.floor q := Int.floor_nonneg.mpr h
  simp only [rhe]
  split_ifs <;> omega

lemma qtrunc_of_nonneg (q : ℚ) (h : 0 ≤ q) : qtrunc q = Int.floor q :=
  if_neg (not_lt.mpr h)

/-- Bounds of the hour/minute/second fields computed by floor divmod from a
nonnegative whole-second count. -/
lemma hms_bounds (T : ℤ) (hT : 0 ≤ T) :
    0 ≤ T.fdiv 3600 ∧
    0 ≤ (T.fmod 3600).fdiv 60 ∧ (T.fmod 3600).fdiv 60 < 60 ∧
    0 ≤ (T.fmod 3600).fmod 60 ∧ (T.fmod 3600).fmod 60 < 60 := by
  rw [Int.fdiv_eq_ediv T (by norm_num), Int.fmod_eq_emod T (by norm_num),
    Int.fdiv_eq_ediv _ (by norm_num), Int.fmod_eq_emod _ (by norm_num)]
  omega

/-- The millisecond field extracted from the fractional remainder of a
nonnegative value lies in [0, 1000). -/
lemma qtrunc_ms_bounds (x : ℚ) (hx : 0 ≤ x) :
    0 ≤ qtrunc ((x - (qtrunc x : ℚ)) * 1000) ∧
    qtrunc ((x - (qtrunc x : ℚ)) * 1000) < 1000 := by
  rw [qtrunc_of_nonneg x hx]
  have h0 : 0 ≤ x - (Int.floor x : ℚ) := sub_nonneg.mpr (Int.floor_le x)
  have h1 : x - (Int.floor x : ℚ) < 1 := by
    have := Int.lt_floor_add_one x
    linarith
  have hy0 : 0 ≤ (x - (Int.floor x : ℚ)) * 1000 :=
    mul_nonneg h0 (by norm_num)
  rw [qtrunc_of_nonneg _ hy0]
  refine ⟨Int.floor_nonneg.mpr hy0, Int.floor_lt.mpr ?_⟩
  push_cast
  linarith

/-- For nonnegative seconds, `format_timestamp` produces the zero-padded
`HH:MM:SS.mmm` shape: hours are the truncated whole hours, minutes and
seconds lie in [0, 60) and milliseconds (taken from the fractional remainder
by truncation) lie in [0, 1000). -/
lemma format_timestamp_shape (s : ℚ) (hs : 0 ≤ s) :
    ∃ H M S MS : ℤ, 0 ≤ H ∧ 0 ≤ M ∧ M < 60 ∧ 0 ≤ S ∧ S < 60 ∧
      0 ≤ MS ∧ MS < 1000 ∧
      format_timestamp s =
        zfill 2 H ++ ":" ++ zfill 2 M ++ ":" ++ zfill 2 S ++ "." ++
          zfill 3 MS := by
  have hraw : (0 : ℚ) ≤ s * 1000000 := by positivity
  have hc : (0 : ℤ) ≤ rhe (s * 1000000) := rhe_nonneg _ hraw
  have htd0 : (0 : ℚ) ≤ (rhe (s * 1000000) : ℚ) / 1000000 :=
    div_nonneg (by exact_mod_cast hc) (by norm_num)
  have hT0 : 0 ≤ qtrunc ((rhe (s * 1000000) : ℚ) / 1000000) := by
    rw [qtrunc_of_nonneg _ htd0]
    exact Int.floor_nonneg.mpr htd0
  obtain ⟨hH, hM0, hM1, hS0, hS1⟩ := hms_bounds _ hT0
  obtain ⟨hMS0, hMS1⟩ := qtrunc_ms_bounds _ htd0
  exact ⟨_, _, _, _, hH, hM0, hM1, hS0, hS1, hMS0, hMS1, rfl⟩

/-- Claim C6 as stated is false on the code: the human-readable timestamp is
not computed from the rounded stored value.  At fps 3000, frame 2000 the
stored `timestamp_seconds` is 0.667 but the stored `timestamp_formatted` is
"00:00:00.666" (from the unrounded 2/3), while formatting the stored rounded
value gives "00:00:00.667". -/
theorem C6_counterexample_double_rounding :
    (mkDetection 3000 2000 rawCar).timestamp_formatted ≠
      format_timestamp (mkDetection 3000 2000 rawCar).timestamp_seconds := by
  with_unfolding_all decide

/-- Claim C6 amended: the human-readable timestamp string has the
`HH:MM:SS.mmm` form with zero-padded fields, hours truncated to whole
numbers and milliseconds truncated from the fractional remainder; but it is
computed from the raw (pre-rounding) per-frame seconds value, while the
stored `timestamp_seconds` is that same raw value rounded to 3 decimal
places — the string is not recomputed from the stored rounded value and may
differ from its rendering in the millisecond field. -/
theorem C6_formatted_timestamp (s : ℚ) (hs : 0 ≤ s) (fps : ℚ)
    (frame_number : ℕ) (r : RawDet) :
    (∃ H M S MS : ℤ, 0 ≤ H ∧ 0 ≤ M ∧ M < 60 ∧ 0 ≤ S ∧ S < 60 ∧
      0 ≤ MS ∧ MS < 1000 ∧
      format_timestamp s =
        zfill 2 H ++ ":" ++ zfill 2 M ++ ":" ++ zfill 2 S ++ "." ++
          zfill 3 MS) ∧
    (mkDetection fps frame_number r).timestamp_formatted =
      format_timestamp (timestampOf frame_number fps) ∧
    (mkDetection fps frame_number r).timestamp_seconds =
      roundTo 3 (timestampOf frame_number fps) :=
  ⟨format_timestamp_shape s hs, rfl, rfl⟩

/-- Witness for the amended claim C6 at the concrete raw timestamp 2/3
(fps 3000, frame 2000). -/
theorem C6_formatted_timestamp_witness :
    (0 ≤ (2/3 : ℚ)) ∧
    ((∃ H M S MS : ℤ, 0 ≤ H ∧ 0 ≤ M ∧ M < 60 ∧ 0 ≤ S ∧ S < 60 ∧
      0 ≤ MS ∧ MS < 1000 ∧
      format_timestamp (2/3) =
        zfill 2 H ++ ":" ++ zfill 2 M ++ ":" ++ zfill 2 S ++ "." ++
          zfill 3 MS) ∧
    (mkDetection 3000 2000 rawCar).timestamp_formatted =
      format_timestamp (timestampOf 2000 3000) ∧
    (mkDetection 3000 2000 rawCar).timestamp_seconds =
      roundTo 3 (timestampOf 2000 3000)) :=
  ⟨by norm_num, C6_formatted_timestamp (2/3) (by norm_num) 3000 2000 rawCar⟩
